import Mathlib

/-!
Shallow embedding of the bakery inventory system (src/bakery.py).

Python floats are modelled as exact rationals; the decimal literals of the
source (0.001, 28.3495, ...) are finite decimals and hence exact in this
embedding.  Python dicts become association lists that preserve insertion
order, as Python dicts do.  The interactive input/printing of the source is
out of scope per the spec; each operation is embedded as a function from the
pre-call inventory and the already-validated primitive arguments to the
post-call inventory together with the error message printed, if any: an
early return of the source is a result that carries the inventory unchanged.
-/

namespace Bakery

/-- The table CONVERSION_FACTORS of the source: category name mapped to the
list of unit symbols with their base-unit factors, in definition order. -/
def CONVERSION_FACTORS : List (String × List (String × ℚ)) :=
  [("mass", [("mg", 1/1000), ("g", 1), ("kg", 1000), ("oz", 283495/10000), ("lb", 453592/1000)]),
   ("volume", [("ml", 1), ("l", 1000), ("tsp", 492892/100000), ("tbsp", 147868/10000)])]

/-- get_all_units of the source: every unit symbol, category by category in
table order. -/
def get_all_units : List String :=
  CONVERSION_FACTORS.flatMap (fun cat => cat.2.map Prod.fst)

/-- get_unit_type of the source: the first category whose unit table
contains the symbol, else none. -/
def get_unit_type (unit : String) : Option String :=
  (CONVERSION_FACTORS.find? (fun p => p.2.any (fun q => q.1 == unit))).map Prod.fst

/-- The dict indexing CONVERSION_FACTORS[cat][unit] of the source.  The
source only ever indexes with a category returned by get_unit_type for the
very unit being looked up, so the default 0 of the failure case is never
reached on the paths of the program. -/
def dict_factor (cat unit : String) : ℚ :=
  ((((CONVERSION_FACTORS.find? (fun p => p.1 == cat)).map Prod.snd).getD []).find?
    (fun q => q.1 == unit)).map Prod.snd |>.getD 0

/-- convert_unit of the source: none when the two categories differ or the
first is unknown (which also covers both unknown), otherwise the value
taken to the base unit and then to the target unit, unrounded. -/
def convert_unit (value : ℚ) (from_unit to_unit : String) : Option ℚ :=
  match get_unit_type from_unit, get_unit_type to_unit with
  | some from_type, some to_type =>
      if from_type = to_type then
        some (value * dict_factor from_type from_unit / dict_factor to_type to_unit)
      else none
  | _, _ => none

/-- Stable ascending insertion into a list sorted by factor; helper for the
sorted(...) call of the source. -/
def insertByFactor (a : String × ℚ) : List (String × ℚ) → List (String × ℚ)
  | [] => [a]
  | b :: bs => if a.2 ≤ b.2 then a :: b :: bs else b :: insertByFactor a bs

/-- sorted(items, key=factor) of the source: a stable ascending sort by the
conversion factor.  The factors within a category are pairwise distinct, so
any correct sort produces the list Python sorted produces. -/
def sortByFactor : List (String × ℚ) → List (String × ℚ)
  | [] => []
  | a :: as => insertByFactor a (sortByFactor as)

/-- Banker rounding to an integer, the rounding of Python round: ties go to
the even neighbour. -/
def round_half_even (x : ℚ) : ℤ :=
  let f := ⌊x⌋
  if x - f < 1/2 then f
  else if x - f > 1/2 then f + 1
  else if Even f then f else f + 1

/-- round(x, 2) of Python on exact decimals. -/
def pyRound2 (x : ℚ) : ℚ := (round_half_even (x * 100) : ℚ) / 100

/-- The for loop of auto_convert: scan the given units in order and stop at
the first one whose factor is at most the quantity, returning the quantity
divided by that factor, rounded to two decimals, with that unit. -/
def scan_units (quantity : ℚ) : List (String × ℚ) → Option (ℚ × String)
  | [] => none
  | p :: rest =>
      if p.2 ≤ quantity then some (pyRound2 (quantity / p.2), p.1)
      else scan_units quantity rest

/-- auto_convert of the source: walk the units of the category of the given
unit from the largest factor down, and at the first unit whose factor is at
most the given quantity return the quantity divided by that factor, rounded
to two decimals, with that unit; if none qualifies, or the unit is unknown,
return the input pair.  Note the source compares and divides the raw
quantity, never the quantity taken to the base unit. -/
def auto_convert (quantity : ℚ) (unit : String) : ℚ × String :=
  match get_unit_type unit with
  | none => (quantity, unit)
  | some unit_type =>
    let units := ((CONVERSION_FACTORS.find? (fun p => p.1 == unit_type)).map Prod.snd).getD []
    let sorted_units := sortByFactor units
    match scan_units quantity sorted_units.reverse with
    | some res => res
    | none => (quantity, unit)

/-- One inventory record: the dict with keys quantity and unit. -/
structure StockEntry where
  quantity : ℚ
  unit : String
deriving DecidableEq, Repr

/-- The inventory dict: names mapped to entries, insertion order kept. -/
abbrev Inventory := List (String × StockEntry)

/-- The error messages the inventory operations can print before an early
return. -/
inductive InvError where
  | InvalidInput
  | NotFound
  | IncompatibleUnits
  | InsufficientStock
deriving DecidableEq, Repr

/-- inventory[name], for the membership test and read of the source. -/
def lookup_entry (inv : Inventory) (name : String) : Option StockEntry :=
  (inv.find? (fun p => p.1 == name)).map Prod.snd

/-- inventory[name] = entry on an existing key: the value is replaced, the
position of the key is kept, every other key untouched. -/
def updateEntry (inv : Inventory) (name : String) (e : StockEntry) : Inventory :=
  inv.map (fun p => if p.1 == name then (p.1, e) else p)

/-- add_ingredient of the source, with the prompts replaced by arguments
already read: empty names and unknown units are rejected up front; a name
already present with quantity zero has its unit and quantity replaced
outright; a name present with nonzero quantity receives the converted
amount in its existing unit, or the call fails as incompatible; an absent
name is appended as a fresh entry.  The source validates the quantity to be
positive before this logic runs. -/
def add_ingredient (inv : Inventory) (name unit : String) (quantity : ℚ) :
    Inventory × Option InvError :=
  if name = "" then (inv, some .InvalidInput)
  else if unit ∉ get_all_units then (inv, some .InvalidInput)
  else
    match lookup_entry inv name with
    | some entry =>
        if entry.quantity = 0 then
          (updateEntry inv name ⟨quantity, unit⟩, none)
        else
          match convert_unit quantity unit entry.unit with
          | none => (inv, some .IncompatibleUnits)
          | some converted_quantity =>
              (updateEntry inv name ⟨entry.quantity + converted_quantity, entry.unit⟩, none)
    | none => (inv ++ [(name, ⟨quantity, unit⟩)], none)

/-- consume_ingredient of the source, with the prompts replaced by
arguments already read: unknown names, then unknown units, are rejected up
front; the requested amount is converted into the unit of the entry,
failing as incompatible when conversion is impossible; an amount above the
stock fails and changes nothing; otherwise the converted amount is
subtracted in place. -/
def consume_ingredient (inv : Inventory) (name unit : String) (quantity : ℚ) :
    Inventory × Option InvError :=
  match lookup_entry inv name with
  | none => (inv, some .NotFound)
  | some entry =>
      if unit ∉ get_all_units then (inv, some .InvalidInput)
      else
        match convert_unit quantity unit entry.unit with
        | none => (inv, some .IncompatibleUnits)
        | some converted_quantity =>
            if converted_quantity > entry.quantity then (inv, some .InsufficientStock)
            else (updateEntry inv name ⟨entry.quantity - converted_quantity, entry.unit⟩, none)

/-- search_ingredient of the source, reduced to its pure lookup. -/
def search_ingredient (inv : Inventory) (name : String) : Option StockEntry :=
  lookup_entry inv name

/-- view_inventory of the source, reduced to the records it iterates. -/
def list_all (inv : Inventory) : List (String × StockEntry) := inv

/-- One call of the menu loop into the core: the four operations the caller
can issue. -/
inductive Op where
  | add (name unit : String) (quantity : ℚ)
  | consume (name unit : String) (quantity : ℚ)
  | search (name : String)
  | view
deriving DecidableEq, Repr

/-- The inventory after one operation: search and view read only. -/
def apply_op (inv : Inventory) : Op → Inventory
  | .add name unit quantity => (add_ingredient inv name unit quantity).1
  | .consume name unit quantity => (consume_ingredient inv name unit quantity).1
  | .search _ => inv
  | .view => inv

/-- The inventory after a sequence of operations from the empty initial
dict of the source. -/
def run_ops (ops : List Op) : Inventory :=
  ops.foldl apply_op []

/-- The quantity of an add or consume call is positive, as the validated
input loop of the source guarantees. -/
def op_pos : Op → Prop
  | .add _ _ quantity => 0 < quantity
  | .consume _ _ quantity => 0 < quantity
  | .search _ => True
  | .view => True

instance : DecidablePred op_pos := by
  intro op
  cases op <;> simp only [op_pos] <;> infer_instance

/-- The data-model invariant of the spec: every record holds a non-negative
quantity in a unit of the catalog. -/
def InvariantHolds (inv : Inventory) : Prop :=
  ∀ p ∈ inv, 0 ≤ p.2.quantity ∧ p.2.unit ∈ get_all_units

instance : DecidablePred InvariantHolds := by
  intro inv
  unfold InvariantHolds
  infer_instance

end Bakery

namespace Bakery

/-! ### Helper lemmas about the unit catalog and the conversion engine -/

/-- A unit with a category is one of the nine units of the table, and its
factor in that category is strictly positive. -/
theorem unit_factor_spec (u c : String) (h : get_unit_type u = some c) :
    u ∈ get_all_units ∧ 0 < dict_factor c u := by
  unfold get_unit_type at h
  cases hf : CONVERSION_FACTORS.find? (fun p => p.2.any (fun q => q.1 == u)) with
  | none => rw [hf] at h; simp at h
  | some p =>
    rw [hf] at h
    have hp := List.find?_some hf
    have hm := List.mem_of_find?_eq_some hf
    simp only [CONVERSION_FACTORS, List.mem_cons, List.not_mem_nil, or_false] at hm
    rcases hm with rfl | rfl
    · replace h : c = "mass" := by simpa using h.symm
      subst h
      simp only [List.any_cons, List.any_nil, Bool.or_eq_true, beq_iff_eq,
        Bool.false_eq_true, or_false] at hp
      rcases hp with rfl | rfl | rfl | rfl | rfl <;>
        refine ⟨by decide, ?_⟩ <;>
        · simp only [dict_factor, CONVERSION_FACTORS, List.find?, String.reduceBEq,
            String.reduceEq, Option.map_some', Option.getD_some]
          norm_num
    · replace h : c = "volume" := by simpa using h.symm
      subst h
      simp only [List.any_cons, List.any_nil, Bool.or_eq_true, beq_iff_eq,
        Bool.false_eq_true, or_false] at hp
      rcases hp with rfl | rfl | rfl | rfl <;>
        refine ⟨by decide, ?_⟩ <;>
        · simp only [dict_factor, CONVERSION_FACTORS, List.find?, String.reduceBEq,
            String.reduceEq, Option.map_some', Option.getD_some]
          norm_num

/-- The categories of the two units agree exactly when convert_unit
produces a value, and that value is the ratio formula of the source. -/
theorem convert_unit_same_cat {u v c : String} (hu : get_unit_type u = some c)
    (hv : get_unit_type v = some c) (x : ℚ) :
    convert_unit x u v = some (x * dict_factor c u / dict_factor c v) := by
  unfold convert_unit
  rw [hu, hv]
  simp

/-- convert_unit returns none exactly when a category is missing or the two
categories differ. -/
theorem convert_unit_eq_none (x : ℚ) (u v : String) :
    convert_unit x u v = none ↔
      (get_unit_type u = none ∨ get_unit_type v = none ∨
        get_unit_type u ≠ get_unit_type v) := by
  unfold convert_unit
  cases hu : get_unit_type u with
  | none => simp
  | some cu =>
    cases hv : get_unit_type v with
    | none => simp
    | some cv =>
      by_cases hc : cu = cv <;> simp [hc]

/-- Inversion for a successful conversion. -/
theorem convert_unit_eq_some {x cq : ℚ} {u v : String}
    (h : convert_unit x u v = some cq) :
    ∃ c, get_unit_type u = some c ∧ get_unit_type v = some c ∧
      cq = x * dict_factor c u / dict_factor c v := by
  unfold convert_unit at h
  cases hu : get_unit_type u with
  | none => rw [hu] at h; simp at h
  | some cu =>
    cases hv : get_unit_type v with
    | none => rw [hu, hv] at h; simp at h
    | some cv =>
      rw [hu, hv] at h
      by_cases hc : cu = cv
      · subst hc
        simp at h
        exact ⟨cu, rfl, rfl, h.symm⟩
      · simp [hc] at h

/-- A successful conversion of a positive amount is positive. -/
theorem convert_unit_pos {x cq : ℚ} {u v : String}
    (h : convert_unit x u v = some cq) (hx : 0 < x) : 0 < cq := by
  obtain ⟨c, hu, hv, rfl⟩ := convert_unit_eq_some h
  have pu := (unit_factor_spec u c hu).2
  have pv := (unit_factor_spec v c hv).2
  exact div_pos (mul_pos hx pu) pv

/-! ### Helper lemmas about the inventory dict -/

/-- A successful lookup is a record of the inventory under its own name. -/
theorem lookup_entry_mem {inv : Inventory} {name : String} {e : StockEntry}
    (h : lookup_entry inv name = some e) : (name, e) ∈ inv := by
  unfold lookup_entry at h
  cases hf : inv.find? (fun p => p.1 == name) with
  | none => rw [hf] at h; simp at h
  | some p =>
    rw [hf] at h
    simp only [Option.map_some'] at h
    have hp := List.find?_some hf
    have hm := List.mem_of_find?_eq_some hf
    obtain ⟨a, b⟩ := p
    simp only [beq_iff_eq] at hp
    subst hp
    cases h
    exact hm

/-- Updating a present key leaves it present with the new value. -/
theorem lookup_entry_updateEntry {inv : Inventory} {name : String} {e : StockEntry}
    (h : lookup_entry inv name = some e) (e2 : StockEntry) :
    lookup_entry (updateEntry inv name e2) name = some e2 := by
  induction inv with
  | nil => simp [lookup_entry, List.find?] at h
  | cons p rest ih =>
    by_cases hp : p.1 = name
    · simp [lookup_entry, updateEntry, List.find?, hp]
    · have hb : (p.1 == name) = false := by simpa using hp
      simp only [lookup_entry, updateEntry, List.map_cons, List.find?, hb,
        Bool.false_eq_true, if_false] at h ⊢
      exact ih h

end Bakery

namespace Bakery

/-! ### Preservation of the data-model invariant -/

/-- Replacing a value with an invariant-respecting one keeps the invariant. -/
theorem invariant_updateEntry {inv : Inventory} (name : String) (e : StockEntry)
    (hinv : InvariantHolds inv) (hq : 0 ≤ e.quantity) (hu : e.unit ∈ get_all_units) :
    InvariantHolds (updateEntry inv name e) := by
  intro p hp
  rcases List.mem_map.mp hp with ⟨r, hr, hre⟩
  by_cases hb : (r.1 == name) = true
  · rw [if_pos hb] at hre
    subst hre
    exact ⟨hq, hu⟩
  · rw [if_neg hb] at hre
    subst hre
    exact hinv r hr

/-- add_ingredient keeps the invariant for positive quantities. -/
theorem add_ingredient_preserves (inv : Inventory) (name unit : String) (q : ℚ)
    (hq : 0 < q) (hinv : InvariantHolds inv) :
    InvariantHolds (add_ingredient inv name unit q).1 := by
  by_cases h1 : name = ""
  · simpa [add_ingredient, h1] using hinv
  by_cases h2 : unit ∈ get_all_units
  case neg => simpa [add_ingredient, h1, h2] using hinv
  cases hl : lookup_entry inv name with
  | none =>
    simp only [add_ingredient, h1, if_false, h2, not_true, if_neg, hl]
    intro p hp
    rcases List.mem_append.mp hp with hp | hp
    · exact hinv p hp
    · rcases List.mem_singleton.mp hp with rfl
      exact ⟨le_of_lt hq, h2⟩
  | some e =>
    have he1 : 0 ≤ e.quantity := (hinv (name, e) (lookup_entry_mem hl)).1
    have he2 : e.unit ∈ get_all_units := (hinv (name, e) (lookup_entry_mem hl)).2
    by_cases h0 : e.quantity = 0
    · simpa [add_ingredient, h1, h2, hl, h0] using
        invariant_updateEntry name ⟨q, unit⟩ hinv (le_of_lt hq) h2
    · cases hc : convert_unit q unit e.unit with
      | none => simpa [add_ingredient, h1, h2, hl, h0, hc] using hinv
      | some cq =>
        have hcq := convert_unit_pos hc hq
        simpa [add_ingredient, h1, h2, hl, h0, hc] using
          invariant_updateEntry name ⟨e.quantity + cq, e.unit⟩ hinv
            (add_nonneg he1 (le_of_lt hcq)) he2

/-- consume_ingredient keeps the invariant for positive quantities. -/
theorem consume_ingredient_preserves (inv : Inventory) (name unit : String) (q : ℚ)
    (hq : 0 < q) (hinv : InvariantHolds inv) :
    InvariantHolds (consume_ingredient inv name unit q).1 := by
  cases hl : lookup_entry inv name with
  | none => simpa [consume_ingredient, hl] using hinv
  | some e =>
    have he1 : 0 ≤ e.quantity := (hinv (name, e) (lookup_entry_mem hl)).1
    have he2 : e.unit ∈ get_all_units := (hinv (name, e) (lookup_entry_mem hl)).2
    by_cases h2 : unit ∈ get_all_units
    case neg => simpa [consume_ingredient, hl, h2] using hinv
    cases hc : convert_unit q unit e.unit with
    | none => simpa [consume_ingredient, hl, h2, hc] using hinv
    | some cq =>
      by_cases hgt : cq > e.quantity
      · simpa [consume_ingredient, hl, h2, hc, hgt] using hinv
      · have hle : cq ≤ e.quantity := not_lt.mp hgt
        have hsub : 0 ≤ e.quantity - cq := sub_nonneg.mpr hle
        simpa [consume_ingredient, hl, h2, hc, hgt] using
          invariant_updateEntry name ⟨e.quantity - cq, e.unit⟩ hinv hsub he2

/-- Auxiliary induction for sequences of operations. -/
theorem run_ops_invariant_aux (ops : List Op) :
    ∀ inv : Inventory, (∀ op ∈ ops, op_pos op) → InvariantHolds inv →
      InvariantHolds (ops.foldl apply_op inv) := by
  induction ops with
  | nil => intro inv _ hinv; simpa using hinv
  | cons op rest ih =>
    intro inv hpos hinv
    rw [List.foldl_cons]
    refine ih _ (fun o ho => hpos o (List.mem_cons_of_mem _ ho)) ?_
    have hop := hpos op (List.mem_cons_self _ _)
    cases op with
    | add n u q => exact add_ingredient_preserves inv n u q hop hinv
    | consume n u q => exact consume_ingredient_preserves inv n u q hop hinv
    | search n => exact hinv
    | view => exact hinv

end Bakery

namespace Bakery

/-! ### The claims -/

/-- Claim C1 (code evaluation at the failing input): the source compares
the raw quantity, not the quantity taken to the base unit, against the
factors.  At quantity 2 of unit kg the base value is 2000, so the claimed
result is the pair of 2 and kg; the code instead finds the factor 1 of g
below the raw 2 and answers the pair of 2 and g, presenting 2 kg as 2 g. -/
theorem auto_convert_raw_compare_eval : auto_convert 2 "kg" = (2, "g") := by
  norm_num [auto_convert, get_unit_type, CONVERSION_FACTORS, sortByFactor, insertByFactor,
    scan_units, pyRound2, round_half_even, List.find?, List.any]

/-- Claim C2 (counterexample): auto_convert at 500 g does not return the
input pair, because the lb factor 453.592 is at most 500. -/
theorem auto_convert_500g_claim_false : auto_convert 500 "g" ≠ (500, "g") := by
  have h : auto_convert 500 "g" = (11/10, "lb") := by
    norm_num [auto_convert, get_unit_type, CONVERSION_FACTORS, sortByFactor, insertByFactor,
      scan_units, pyRound2, round_half_even, List.find?, List.any]
  rw [h]
  intro hc
  exact absurd (congrArg Prod.snd hc) (by decide)

/-- Claim C2 (amended): auto_scale at 1500 g gives 1.5 kg, and at 500 g it
gives 1.10 lb, the largest mass unit whose factor is at most 500. -/
theorem auto_convert_scaling_examples :
    auto_convert 1500 "g" = (3/2, "kg") ∧ auto_convert 500 "g" = (11/10, "lb") := by
  constructor <;>
    norm_num [auto_convert, get_unit_type, CONVERSION_FACTORS, sortByFactor, insertByFactor,
      scan_units, pyRound2, round_half_even, List.find?, List.any]

/-- Claim C9: auto_scale can move to a unit with a strictly smaller factor
than the input unit: half a gram becomes 500 mg, and the mg factor lies
strictly below the g factor. -/
theorem auto_convert_scales_downward :
    auto_convert (1/2) "g" = (500, "mg") ∧
    dict_factor "mass" "mg" < dict_factor "mass" "g" := by
  constructor
  · norm_num [auto_convert, get_unit_type, CONVERSION_FACTORS, sortByFactor, insertByFactor,
      scan_units, pyRound2, round_half_even, List.find?, List.any]
  · simp only [dict_factor, CONVERSION_FACTORS, List.find?, String.reduceBEq,
      String.reduceEq, Option.map_some', Option.getD_some]
    norm_num

/-- Claim C6: converting forth and back between two units of one category
returns the input exactly in this rational embedding. -/
theorem convert_unit_round_trip (x : ℚ) (u v c : String)
    (hu : get_unit_type u = some c) (hv : get_unit_type v = some c) (hx : 0 < x) :
    (convert_unit x u v).bind (fun y => convert_unit y v u) = some x := by
  have hu0 : dict_factor c u ≠ 0 := ne_of_gt (unit_factor_spec u c hu).2
  have hv0 : dict_factor c v ≠ 0 := ne_of_gt (unit_factor_spec v c hv).2
  rw [convert_unit_same_cat hu hv]
  simp only [Option.bind]
  rw [convert_unit_same_cat hv hu]
  congr 1
  field_simp

/-- Claim C6 witness: grams to kilograms and back at 3. -/
theorem convert_unit_round_trip_witness :
    (convert_unit 3 "g" "kg").bind (fun y => convert_unit y "kg" "g") = some 3 :=
  convert_unit_round_trip 3 "g" "kg" "mass" (by decide) (by decide) (by norm_num)

/-- Claim C7: convert_unit fails exactly when a unit is unknown or the two
categories differ, and otherwise returns the unrounded ratio formula. -/
theorem convert_unit_failure_spec (x : ℚ) (u v : String) :
    (convert_unit x u v = none ↔
      (get_unit_type u = none ∨ get_unit_type v = none ∨
        get_unit_type u ≠ get_unit_type v)) ∧
    (∀ c, get_unit_type u = some c → get_unit_type v = some c →
      convert_unit x u v = some (x * dict_factor c u / dict_factor c v)) :=
  ⟨convert_unit_eq_none x u v, fun _ hu hv => convert_unit_same_cat hu hv x⟩

/-- Claim C7 witness: a cross-category pair fails, a same-category pair
converts by the ratio formula. -/
theorem convert_unit_failure_spec_witness :
    convert_unit 5 "g" "ml" = none ∧
    convert_unit 5 "kg" "g" =
      some (5 * dict_factor "mass" "kg" / dict_factor "mass" "g") :=
  ⟨(convert_unit_failure_spec 5 "g" "ml").1.mpr (by decide),
   (convert_unit_failure_spec 5 "kg" "g").2 "mass" (by decide) (by decide)⟩

end Bakery

namespace Bakery

/-- Claim C3: consume of a positive quantity of a known unit fails with
NotFound on an absent name, with IncompatibleUnits when the category of the
given unit differs from that of the stored unit, and with
InsufficientStock when the converted amount exceeds the stock, each time
with the inventory unchanged; otherwise the converted amount is subtracted
in the stored unit, and a consume of exactly the stock leaves the entry
present with quantity zero. -/
theorem consume_ingredient_spec (inv : Inventory) (name unit : String) (q : ℚ)
    (hq : 0 < q) (hu : unit ∈ get_all_units) :
    (lookup_entry inv name = none →
        consume_ingredient inv name unit q = (inv, some InvError.NotFound)) ∧
    (∀ e, lookup_entry inv name = some e →
      (get_unit_type unit ≠ get_unit_type e.unit →
          consume_ingredient inv name unit q = (inv, some InvError.IncompatibleUnits)) ∧
      (∀ cq, convert_unit q unit e.unit = some cq →
        (e.quantity < cq →
            consume_ingredient inv name unit q = (inv, some InvError.InsufficientStock)) ∧
        (cq ≤ e.quantity →
            consume_ingredient inv name unit q =
              (updateEntry inv name ⟨e.quantity - cq, e.unit⟩, none) ∧
            lookup_entry (consume_ingredient inv name unit q).1 name =
              some ⟨e.quantity - cq, e.unit⟩))) := by
  refine ⟨fun h => by simp [consume_ingredient, h],
    fun e he => ⟨?_, fun cq hcq => ⟨?_, ?_⟩⟩⟩
  · intro hne
    have hcn : convert_unit q unit e.unit = none :=
      (convert_unit_eq_none q unit e.unit).mpr (Or.inr (Or.inr hne))
    simp [consume_ingredient, he, hu, hcn]
  · intro hlt
    simp [consume_ingredient, he, hu, hcq, hlt]
  · intro hle
    have hng : ¬ e.quantity < cq := not_lt.mpr hle
    have hres : consume_ingredient inv name unit q =
        (updateEntry inv name ⟨e.quantity - cq, e.unit⟩, none) := by
      simp [consume_ingredient, he, hu, hcq, hng]
    refine ⟨hres, ?_⟩
    rw [hres]
    exact lookup_entry_updateEntry he _

/-- Claim C3 witness: consuming one kilogram from 800 grams of flour fails
with InsufficientStock and changes nothing. -/
theorem consume_ingredient_spec_witness :
    consume_ingredient [("flour", (⟨800, "g"⟩ : StockEntry))] "flour" "kg" 1 =
      ([("flour", ⟨800, "g"⟩)], some InvError.InsufficientStock) :=
  (((consume_ingredient_spec [("flour", ⟨800, "g"⟩)] "flour" "kg" 1
      (by norm_num) (by decide)).2 ⟨800, "g"⟩
      (by simp [lookup_entry, List.find?])).2 1000
      (by simp [convert_unit, get_unit_type, CONVERSION_FACTORS, dict_factor,
            List.find?, List.any] <;> norm_num)).1
    (show (800 : ℚ) < 1000 by norm_num)

/-- Claim C4: add of a positive quantity of a known unit onto an entry with
positive stock adds the converted amount in the stored unit when the
categories agree, fails with IncompatibleUnits and changes nothing when
they differ, and appends a fresh entry with the given quantity and unit
when the name is absent. -/
theorem add_ingredient_spec (inv : Inventory) (name unit : String) (q : ℚ)
    (hn : name ≠ "") (hu : unit ∈ get_all_units) (hq : 0 < q) :
    (∀ e, lookup_entry inv name = some e → 0 < e.quantity →
      ((∀ cq, convert_unit q unit e.unit = some cq →
          add_ingredient inv name unit q =
            (updateEntry inv name ⟨e.quantity + cq, e.unit⟩, none)) ∧
       (get_unit_type unit ≠ get_unit_type e.unit →
          add_ingredient inv name unit q = (inv, some InvError.IncompatibleUnits)))) ∧
    (lookup_entry inv name = none →
      add_ingredient inv name unit q = (inv ++ [(name, ⟨q, unit⟩)], none)) := by
  constructor
  · intro e he h0
    have h0' : e.quantity ≠ 0 := ne_of_gt h0
    constructor
    · intro cq hcq
      simp [add_ingredient, hn, hu, he, h0', hcq]
    · intro hne
      have hcn : convert_unit q unit e.unit = none :=
        (convert_unit_eq_none q unit e.unit).mpr (Or.inr (Or.inr hne))
      simp [add_ingredient, hn, hu, he, h0', hcn]
  · intro he
    simp [add_ingredient, hn, hu, he]

/-- Claim C4 witness: adding one kilogram to 800 grams of flour yields 1800
in grams. -/
theorem add_ingredient_spec_witness :
    add_ingredient [("flour", (⟨800, "g"⟩ : StockEntry))] "flour" "kg" 1 =
      ([("flour", ⟨1800, "g"⟩)], none) := by
  have h := ((add_ingredient_spec [("flour", ⟨800, "g"⟩)] "flour" "kg" 1
      (by decide) (by decide) (by norm_num)).1 ⟨800, "g"⟩
      (by simp [lookup_entry, List.find?]) (show (0 : ℚ) < 800 by norm_num)).1 1000
      (by simp [convert_unit, get_unit_type, CONVERSION_FACTORS, dict_factor,
            List.find?, List.any] <;> norm_num)
  rw [h]
  simp [updateEntry] <;> norm_num

/-- Claim C5: add of a positive quantity of a known unit onto an entry
whose stock is exactly zero replaces unit and quantity outright, with no
conversion against the old unit. -/
theorem add_ingredient_rebase (inv : Inventory) (name unit : String) (q : ℚ)
    (e : StockEntry) (hn : name ≠ "") (hu : unit ∈ get_all_units) (hq : 0 < q)
    (he : lookup_entry inv name = some e) (h0 : e.quantity = 0) :
    add_ingredient inv name unit q = (updateEntry inv name ⟨q, unit⟩, none) := by
  simp [add_ingredient, hn, hu, he, h0]

/-- Claim C5 witness: after flour was consumed down to zero grams, adding
two pounds re-bases the entry to 2 lb. -/
theorem add_ingredient_rebase_witness :
    add_ingredient [("flour", (⟨0, "g"⟩ : StockEntry))] "flour" "lb" 2 =
      ([("flour", ⟨2, "lb"⟩)], none) := by
  have h := add_ingredient_rebase [("flour", ⟨0, "g"⟩)] "flour" "lb" 2 ⟨0, "g"⟩
      (by decide) (by decide) (by norm_num) (by simp [lookup_entry, List.find?]) rfl
  rw [h]
  simp [updateEntry]

/-- Claim C10: consuming any positive quantity in a compatible unit from an
entry with zero stock always fails with InsufficientStock and leaves the
entry untouched. -/
theorem consume_zero_entry_fails (inv : Inventory) (name unit : String) (q : ℚ)
    (e : StockEntry) (c : String) (hq : 0 < q)
    (he : lookup_entry inv name = some e) (h0 : e.quantity = 0)
    (hcu : get_unit_type unit = some c) (hce : get_unit_type e.unit = some c) :
    consume_ingredient inv name unit q = (inv, some InvError.InsufficientStock) ∧
    lookup_entry (consume_ingredient inv name unit q).1 name = some e := by
  have hu : unit ∈ get_all_units := (unit_factor_spec unit c hcu).1
  have hconv := convert_unit_same_cat hcu hce q
  have hpos : 0 < q * dict_factor c unit / dict_factor c e.unit :=
    div_pos (mul_pos hq (unit_factor_spec unit c hcu).2) (unit_factor_spec e.unit c hce).2
  have hgt : e.quantity < q * dict_factor c unit / dict_factor c e.unit := by
    rw [h0]; exact hpos
  have hres : consume_ingredient inv name unit q =
      (inv, some InvError.InsufficientStock) := by
    simp [consume_ingredient, he, hu, hconv, hgt]
  exact ⟨hres, by rw [hres]; exact he⟩

/-- Claim C10 witness: consuming one kilogram from a zero-gram flour entry
fails with InsufficientStock. -/
theorem consume_zero_entry_fails_witness :
    consume_ingredient [("flour", (⟨0, "g"⟩ : StockEntry))] "flour" "kg" 1 =
      ([("flour", ⟨0, "g"⟩)], some InvError.InsufficientStock) :=
  (consume_zero_entry_fails [("flour", ⟨0, "g"⟩)] "flour" "kg" 1 ⟨0, "g"⟩ "mass"
    (by norm_num) (by simp [lookup_entry, List.find?]) rfl (by decide) (by decide)).1

/-- Claim C8: after any sequence of operations from the empty inventory in
which every add and consume carries a positive quantity, every record has
a non-negative quantity and a unit of the catalog.  The sequence is
arbitrary, so the statement holds in particular for every prefix, that is
after every single operation. -/
theorem inventory_invariant (ops : List Op) (h : ∀ op ∈ ops, op_pos op) :
    InvariantHolds (run_ops ops) := by
  unfold run_ops
  exact run_ops_invariant_aux ops [] h (fun p hp => absurd hp (List.not_mem_nil p))

/-- Claim C8 witness: a mixed sequence of operations keeps the invariant. -/
theorem inventory_invariant_witness :
    InvariantHolds (run_ops
      [Op.add "flour" "g" 500, Op.add "milk" "ml" 250,
       Op.consume "flour" "kg" (1/2), Op.search "flour", Op.view]) := by
  apply inventory_invariant
  intro op hop
  fin_cases hop <;> norm_num [op_pos]

end Bakery
